import Mathlib

/-!
Shallow embedding of the esep-self-employment-hub client code:
the public category listing page (`CategoriesPage`) and the admin
panchayath management component (`PanchayathsManagement`).

Pure computations (sorting, grouping, fee arithmetic) are translated as
Lean functions; the stateful handlers of the React components are translated
as explicit state-passing functions returning the new client state
together with the list of backend requests or UI effects they emit.
Monetary fees are modelled as rationals; JavaScript `Math.round` is
`fun q => Int.floor (q + 1/2)`, which agrees with its ECMAScript
definition on rationals.
-/

namespace Esep

/-- A row of the `categories` table as consumed by `CategoriesPage`. -/
structure Category where
  id : String
  name : String
  actual_fee : ℚ
  offer_fee : ℚ
  is_active : Bool
  is_highlighted : Bool
deriving DecidableEq

/-- The fixed display-priority list of seven category names from
the `queryFn` of `CategoriesPage`. -/
def categoryOrder : List String :=
  [ "Pennyekart Free Registration"
  , "Pennyekart Paid Registration"
  , "Farmelife"
  , "Organelife"
  , "Foodelife"
  , "Entrelife"
  , "Job Card" ]

/-- JS `indexOf` with the sentinel 999 for a name not in `categoryOrder`,
as computed by the comparator in the `queryFn` of `CategoriesPage`
(`aIndex === -1 ? 999 : aIndex`). -/
def categoryRank (name : String) : Nat :=
  (categoryOrder.findIdx? (· == name)).getD 999

/-- The comparator passed to `data.sort`: category `a` precedes `b`
when its rank is at most the rank of `b` (the JS comparator returns
`rank a - rank b`). -/
def catLe (a b : Category) : Bool :=
  categoryRank a.name ≤ categoryRank b.name

/-- The re-sort applied after fetching: ECMAScript `Array.prototype.sort`
is required to be stable, so it is modelled by the stable `mergeSort`. -/
def sortCategories (l : List Category) : List Category :=
  l.mergeSort catLe

/-- The whole `queryFn` body after a successful fetch:
`data?.sort(...) || []` — a null row set becomes the empty list. -/
def categoriesQueryFn (data : Option (List Category)) : List Category :=
  (data.map sortCategories).getD []

/-- The "You Save" figure rendered for a category:
`category.actual_fee - category.offer_fee`. -/
def savingsDisplay (c : Category) : ℚ :=
  c.actual_fee - c.offer_fee

/-- JavaScript `Math.round`: round half toward positive infinity. -/
def jsRound (q : ℚ) : ℤ :=
  ⌊q + 1 / 2⌋

/-- The "Discount" percentage rendered for a category:
`actual_fee > 0 ? Math.round(((actual_fee - offer_fee) / actual_fee) * 100) : 0`. -/
def discountDisplay (c : Category) : ℤ :=
  if 0 < c.actual_fee then jsRound ((c.actual_fee - c.offer_fee) / c.actual_fee * 100)
  else 0

/-- Whether `CategoriesPage` renders its explicit empty state:
`!categories || categories.length === 0`. -/
def categoriesEmptyState (categories : Option (List Category)) : Bool :=
  categories.isNone || (categories.getD []).length == 0

/-- A row of the `panchayaths` table as consumed by
`PanchayathsManagement`. -/
structure Panchayath where
  id : String
  name : String
  district : String
  created_at : String
  updated_at : String
deriving DecidableEq

/-- The composite ordering requested by the admin `queryFn`:
order by district, then by name, both ascending. -/
def panLe (a b : Panchayath) : Bool :=
  a.district < b.district || (a.district == b.district && a.name ≤ b.name)

/-- The admin fetch of the `panchayaths` table: all rows, ordered by
district then name (the stable composite ordering of the backend is modelled
by the stable `mergeSort`). -/
def fetchPanchayaths (table : List Panchayath) : List Panchayath :=
  table.mergeSort panLe

/-- The accumulator step of the grouping `reduce`: a JavaScript object
with string keys preserves key insertion order, so it is modelled as an
association list; a new district key is appended at the end, and a row
is pushed onto the end of the group of its district. -/
def insertGroup (acc : List (String × List Panchayath)) (p : Panchayath) :
    List (String × List Panchayath) :=
  match acc with
  | [] => [(p.district, [p])]
  | (k, g) :: rest =>
    if k = p.district then (k, g ++ [p]) :: rest
    else (k, g) :: insertGroup rest p

/-- The grouping reduce over the fetched rows: groups by district in
key-insertion order. -/
def panchayathsByDistrict (l : List Panchayath) : List (String × List Panchayath) :=
  l.foldl insertGroup []

/-- The grouping applied to the possibly-null query data:
`panchayaths?.reduce(..., {}) || {}`. -/
def panchayathsByDistrictOpt (data : Option (List Panchayath)) :
    List (String × List Panchayath) :=
  (data.map panchayathsByDistrict).getD []

/-- Object property lookup on the modelled grouping object
(`acc[district]`), returning `[]` for an absent key. -/
def groupGet (acc : List (String × List Panchayath)) (k : String) :
    List Panchayath :=
  match acc with
  | [] => []
  | (k', g) :: rest => if k' = k then g else groupGet rest k

/-- Whether `PanchayathsManagement` renders its explicit empty state:
`!isLoading && (!panchayaths || panchayaths.length === 0)`. -/
def panchayathsEmptyState (isLoading : Bool) (panchayaths : Option (List Panchayath)) :
    Bool :=
  !isLoading && (panchayaths.isNone || (panchayaths.getD []).length == 0)

/-- The capability record handed to `PanchayathsManagement` by its
caller (`permissions.canWrite`, `permissions.canDelete`). -/
structure Permissions where
  canWrite : Bool
  canDelete : Bool
deriving DecidableEq

/-- The `formData` React state: name and district, both initially empty. -/
structure FormData where
  name : String
  district : String
deriving DecidableEq

/-- The initial/reset form value: empty name and empty district. -/
def emptyForm : FormData :=
  { name := "", district := "" }

/-- The local React state of the component: the dialog-open flag, the
editing selection, and the form fields. -/
structure ClientState where
  isDialogOpen : Bool
  editingPanchayath : Option Panchayath
  formData : FormData
deriving DecidableEq

/-- A backend request issued by a mutation. Row-shaped payloads are
modelled as ordered key/value lists, mirroring the JS object literals
sent to the backend client. -/
inductive Request where
  | insert (payload : List (String × String))
  | update (idFilter : String) (payload : List (String × String))
  | delete (idFilter : String)
deriving DecidableEq

/-- The row object sent on insert: `{ name, district }` (the spread of
`panchayathData`). -/
def insertPayload (fd : FormData) : List (String × String) :=
  [("name", fd.name), ("district", fd.district)]

/-- The row object sent on update:
`{ ...panchayathData, updated_at: new Date().toISOString() }`. -/
def updatePayload (fd : FormData) (now : String) : List (String × String) :=
  [("name", fd.name), ("district", fd.district), ("updated_at", now)]

/-- The mutationFn of savePanchayathMutation: update filtered to
`editingPanchayath.id` when an editing selection is active, insert
otherwise. The current time is passed explicitly. -/
def savePanchayathMutationFn (s : ClientState) (now : String) (fd : FormData) :
    Request :=
  match s.editingPanchayath with
  | some ep => Request.update ep.id (updatePayload fd now)
  | none => Request.insert (insertPayload fd)

/-- The submit handler: gated on `permissions.canWrite`; when allowed it
fires the save mutation with the current form data, otherwise nothing
happens. Returns the (unchanged) client state and the requests issued. -/
def handleSubmit (perms : Permissions) (s : ClientState) (now : String) :
    ClientState × List Request :=
  if perms.canWrite then (s, [savePanchayathMutationFn s now s.formData])
  else (s, [])

/-- The delete handler: gated on `permissions.canDelete` and on the
`window.confirm` answer; only then is the delete mutation fired. -/
def handleDelete (perms : Permissions) (confirmed : Bool) (id : String)
    (s : ClientState) : ClientState × List Request :=
  if perms.canDelete then
    if confirmed then (s, [Request.delete id]) else (s, [])
  else (s, [])

/-- The edit handler: selects a row for editing, copies its name and
district into the form, and opens the dialog. -/
def handleEdit (p : Panchayath) (s : ClientState) : ClientState :=
  { s with
    editingPanchayath := some p
    formData := { name := p.name, district := p.district }
    isDialogOpen := true }

/-- A UI/cache side effect emitted by a mutation callback. -/
inductive Effect where
  | invalidate (queryKey : String)
  | toast (title description : String) (destructive : Bool)
deriving DecidableEq

/-- On success of the save mutation: invalidate the list query,
close the dialog, clear the editing selection, reset the form, and
toast (the toast text reads the pre-success editing selection). -/
def saveOnSuccess (s : ClientState) : ClientState × List Effect :=
  ({ isDialogOpen := false, editingPanchayath := none, formData := emptyForm },
   [ Effect.invalidate "admin-panchayaths"
   , Effect.toast
       (if s.editingPanchayath.isSome then "Panchayath Updated" else "Panchayath Created")
       (if s.editingPanchayath.isSome
         then "Panchayath has been updated successfully."
         else "Panchayath has been created successfully.")
       false ])

/-- On error of the save mutation: no state change, a single
fixed destructive toast. -/
def saveOnError (s : ClientState) : ClientState × List Effect :=
  (s, [Effect.toast "Operation Failed" "Failed to save panchayath. Please try again." true])

/-- On success of the delete mutation: invalidate the list query and
toast; the local state is untouched. -/
def deleteOnSuccess (s : ClientState) : ClientState × List Effect :=
  (s, [ Effect.invalidate "admin-panchayaths"
      , Effect.toast "Panchayath Deleted" "Panchayath has been deleted successfully." false ])

/-- On error of the delete mutation: no state change, a single
fixed destructive toast. -/
def deleteOnError (s : ClientState) : ClientState × List Effect :=
  (s, [Effect.toast "Delete Failed" "Failed to delete panchayath. It may be in use by registrations." true])

/-- Applying one key of a row-shaped update payload to a stored row. -/
def setField (r : Panchayath) (kv : String × String) : Panchayath :=
  if kv.1 = "id" then { r with id := kv.2 }
  else if kv.1 = "name" then { r with name := kv.2 }
  else if kv.1 = "district" then { r with district := kv.2 }
  else if kv.1 = "created_at" then { r with created_at := kv.2 }
  else if kv.1 = "updated_at" then { r with updated_at := kv.2 }
  else r

/-- Applying a whole row-shaped update payload to a stored row. -/
def applyPayload (r : Panchayath) (kvs : List (String × String)) : Panchayath :=
  kvs.foldl setField r

/-- The update of the backend store: rewrite exactly the rows matching
the id filter with the fields of the payload, every other row untouched. -/
def backendUpdate (table : List Panchayath) (idFilter : String)
    (kvs : List (String × String)) : List Panchayath :=
  table.map fun r => if r.id = idFilter then applyPayload r kvs else r

/-- The insert of the backend store: append the new row to the table. -/
def backendInsert (table : List Panchayath) (row : Panchayath) : List Panchayath :=
  table ++ [row]

/-- Modelled from the spec: the delete of the backend store for the
`panchayaths` table is not part of this repository; per the spec,
deletion "may fail if referenced by registration records (a
foreign-key constraint enforced by the backend, surfaced as a generic
error)", and otherwise removes the row with the given id permanently. -/
def backendDelete (table : List Panchayath) (referencedIds : List String)
    (idFilter : String) : Except String (List Panchayath) :=
  if idFilter ∈ referencedIds then Except.error "violates foreign key constraint"
  else Except.ok (table.filter fun r => r.id ≠ idFilter)

/-- One full run of the delete mutation: the backend call followed by
the matching callback. Returns the client state, the (possibly
unchanged) stored table, and the emitted effects. -/
def deleteMutationRun (s : ClientState) (table : List Panchayath)
    (referencedIds : List String) (id : String) :
    ClientState × List Panchayath × List Effect :=
  match backendDelete table referencedIds id with
  | Except.ok t => ((deleteOnSuccess s).1, t, (deleteOnSuccess s).2)
  | Except.error _ => ((deleteOnError s).1, table, (deleteOnError s).2)

/-- The channel filter object passed to the postgres-changes
subscription: event wildcard, schema public, table panchayaths. -/
structure RealtimeFilter where
  event : String
  schema : String
  table : String
deriving DecidableEq

/-- A row-level change notification as delivered by the backend. -/
structure RealtimePayload where
  eventType : String
  newRow : Option Panchayath
  oldRow : Option Panchayath

/-- The name passed to `supabase.channel(...)`. -/
def panchayathsChannelName : String :=
  "panchayaths-changes"

/-- The registered subscription filter of the realtime `useEffect`. -/
def panchayathsChannelFilter : RealtimeFilter :=
  { event := "*", schema := "public", table := "panchayaths" }

/-- The subscription callback: `() => queryClient.invalidateQueries(...)`;
it takes no payload argument, so the notification content is ignored and
the only effect is an invalidation of the list query. -/
def panchayathsChannelHandler : RealtimePayload → List Effect :=
  fun _ => [Effect.invalidate "admin-panchayaths"]

/-- A teardown effect of the realtime `useEffect` cleanup. -/
inductive CleanupEffect where
  | removeChannel (name : String)
deriving DecidableEq

/-- The `useEffect` cleanup: `supabase.removeChannel(channel)`. -/
def channelCleanup : List CleanupEffect :=
  [CleanupEffect.removeChannel panchayathsChannelName]

/-- Example row used for the concrete instance of claim C3. -/
def px1 : Panchayath :=
  { id := "1", name := "B", district := "X", created_at := "c1", updated_at := "u1" }

/-- Example row used for the concrete instance of claim C3. -/
def px2 : Panchayath :=
  { id := "2", name := "A", district := "X", created_at := "c2", updated_at := "u2" }

/-- Example row used for the concrete instance of claim C3. -/
def px3 : Panchayath :=
  { id := "3", name := "C", district := "Y", created_at := "c3", updated_at := "u3" }

lemma catLe_trans : ∀ a b c : Category, catLe a b → catLe b c → catLe a c := by
  intro a b c hab hbc
  simp only [catLe, decide_eq_true_eq] at hab hbc ⊢
  exact le_trans hab hbc

lemma catLe_total : ∀ a b : Category, catLe a b || catLe b a := by
  intro a b
  simp only [catLe, Bool.or_eq_true, decide_eq_true_eq]
  exact Nat.le_total _ _

lemma categoryRank_lt_of_mem {n : String} (h : n ∈ categoryOrder) :
    categoryRank n < 999 := by
  simp only [categoryOrder, List.mem_cons, List.not_mem_nil, or_false] at h
  rcases h with rfl | rfl | rfl | rfl | rfl | rfl | rfl <;> decide

lemma categoryRank_eq_of_not_mem {n : String} (h : n ∉ categoryOrder) :
    categoryRank n = 999 := by
  have hnone : categoryOrder.findIdx? (· == n) = none := by
    rw [List.findIdx?_eq_none_iff]
    intro x hx
    exact beq_eq_false_iff_ne.mpr fun he => h (he ▸ hx)
  rw [categoryRank, hnone]
  rfl

lemma sortCategories_perm (l : List Category) : List.Perm (sortCategories l) l :=
  List.mergeSort_perm l catLe

lemma sortCategories_pairwise (l : List Category) :
    (sortCategories l).Pairwise fun a b => categoryRank a.name ≤ categoryRank b.name := by
  have h := List.sorted_mergeSort catLe_trans catLe_total l
  exact h.imp fun hab => by simpa [catLe] using hab

lemma sortCategories_filter_unmatched (l : List Category) :
    (sortCategories l).filter (fun c => categoryRank c.name == 999)
      = l.filter fun c => categoryRank c.name == 999 := by
  have hsub : List.Sublist (l.filter fun c => categoryRank c.name == 999)
      (sortCategories l) := by
    apply List.sublist_mergeSort catLe_trans catLe_total
    · apply List.pairwise_iff_forall_sublist.mpr
      intro a b hab
      have ha := hab.subset (List.mem_cons_self a [b])
      have hb := hab.subset (List.mem_cons_of_mem a (List.mem_cons_self b []))
      have ha' := (List.mem_filter.mp ha).2
      have hb' := (List.mem_filter.mp hb).2
      simp only [beq_iff_eq] at ha' hb'
      simp [catLe, ha', hb']
    · exact List.filter_sublist l
  have hsub2 := hsub.filter fun c => categoryRank c.name == 999
  rw [List.filter_filter] at hsub2
  simp only [Bool.and_self] at hsub2
  have hlen : (l.filter fun c => categoryRank c.name == 999).length
      = ((sortCategories l).filter fun c => categoryRank c.name == 999).length :=
    (((sortCategories_perm l).filter _).length_eq).symm
  exact (hsub2.eq_of_length hlen).symm

/-- Claim C1: the public category listing re-sorts the fetched rows so
that categories whose names occur in the seven-name priority list appear
in the order of the priority list (rank-sorted), every category with an
unrecognized name appears after all recognized ones, and the relative
order among unrecognized names (all of sentinel rank 999) is preserved
from the fetched array; the re-sort is a permutation of the input. -/
theorem claim_C1 (l : List Category) :
    List.Perm (sortCategories l) l
  ∧ ((sortCategories l).Pairwise fun a b => categoryRank a.name ≤ categoryRank b.name)
  ∧ (∀ a b : Category, List.Sublist [a, b] (sortCategories l) →
      a.name ∉ categoryOrder → b.name ∉ categoryOrder)
  ∧ (sortCategories l).filter (fun c => categoryRank c.name == 999)
      = l.filter (fun c => categoryRank c.name == 999) := by
  refine ⟨sortCategories_perm l, sortCategories_pairwise l, ?_, sortCategories_filter_unmatched l⟩
  intro a b hab ha
  have hle : categoryRank a.name ≤ categoryRank b.name :=
    List.pairwise_iff_forall_sublist.mp (sortCategories_pairwise l) hab
  by_contra hb
  have hb' : categoryRank b.name < 999 := categoryRank_lt_of_mem hb
  have ha' : categoryRank a.name = 999 := categoryRank_eq_of_not_mem ha
  omega

/-- Claim C1 witness: the theorem applied to a concrete two-element
fetched array, extracting the stability conjunct as a closed equation. -/
theorem claim_C1_witness :
    (sortCategories
        [ { id := "1", name := "Zed", actual_fee := 1, offer_fee := 0,
            is_active := true, is_highlighted := false }
        , { id := "2", name := "Job Card", actual_fee := 2, offer_fee := 1,
            is_active := true, is_highlighted := false } ]).filter
        (fun c => categoryRank c.name == 999)
      = List.filter (fun c => categoryRank c.name == 999)
        [ { id := "1", name := "Zed", actual_fee := 1, offer_fee := 0,
            is_active := true, is_highlighted := false }
        , { id := "2", name := "Job Card", actual_fee := 2, offer_fee := 1,
            is_active := true, is_highlighted := false } ] :=
  (claim_C1 _).2.2.2

/-- Claim C2: for every rendered category the displayed savings is
`actual_fee - offer_fee`; the displayed discount percentage is
`round((actual_fee - offer_fee) / actual_fee * 100)` when
`actual_fee > 0` and `0` when `actual_fee = 0` (the division is guarded,
so it is never evaluated at a zero denominator); at
`actual_fee = 100, offer_fee = 40` the displayed discount is `60`. -/
theorem claim_C2 (c : Category) :
    savingsDisplay c = c.actual_fee - c.offer_fee
  ∧ (0 < c.actual_fee →
      discountDisplay c = round ((c.actual_fee - c.offer_fee) / c.actual_fee * 100))
  ∧ (c.actual_fee = 0 → discountDisplay c = 0)
  ∧ discountDisplay { id := "", name := "", actual_fee := 100, offer_fee := 40,
                      is_active := true, is_highlighted := false } = 60 := by
  refine ⟨rfl, ?_, ?_, ?_⟩
  · intro h
    rw [discountDisplay, if_pos h, jsRound, round_eq]
  · intro h
    rw [discountDisplay, if_neg (by rw [h]; exact lt_irrefl 0)]
  · rw [discountDisplay, if_pos (by norm_num)]
    rw [show ((100 : ℚ) - 40) / 100 * 100 = 60 by norm_num]
    rw [jsRound, show (60 : ℚ) + 1 / 2 = 121 / 2 by norm_num]
    rw [Int.floor_eq_iff]
    norm_num

/-- Claim C2 witness: the theorem applied at the concrete category with
`actual_fee = 100`, `offer_fee = 40`, extracting the closed conjunct. -/
theorem claim_C2_witness :
    discountDisplay { id := "", name := "", actual_fee := 100, offer_fee := 40,
                      is_active := true, is_highlighted := false } = 60 :=
  (claim_C2 { id := "", name := "", actual_fee := 100, offer_fee := 40,
              is_active := true, is_highlighted := false }).2.2.2

lemma panLe_iff {a b : Panchayath} :
    panLe a b ↔ a.district < b.district ∨ (a.district = b.district ∧ a.name ≤ b.name) := by
  simp [panLe, Bool.or_eq_true, Bool.and_eq_true, decide_eq_true_eq, beq_iff_eq]

lemma panLe_trans : ∀ a b c : Panchayath, panLe a b → panLe b c → panLe a c := by
  intro a b c hab hbc
  rw [panLe_iff] at hab hbc ⊢
  rcases hab with hab | ⟨hab, hab'⟩ <;> rcases hbc with hbc | ⟨hbc, hbc'⟩
  · exact Or.inl (lt_trans hab hbc)
  · exact Or.inl (hbc ▸ hab)
  · exact Or.inl (hab ▸ hbc)
  · exact Or.inr ⟨hab.trans hbc, le_trans hab' hbc'⟩

lemma panLe_total : ∀ a b : Panchayath, panLe a b || panLe b a := by
  intro a b
  simp only [Bool.or_eq_true]
  rw [panLe_iff, panLe_iff]
  rcases lt_trichotomy a.district b.district with h | h | h
  · exact Or.inl (Or.inl h)
  · rcases le_total a.name b.name with hn | hn
    · exact Or.inl (Or.inr ⟨h, hn⟩)
    · exact Or.inr (Or.inr ⟨h.symm, hn⟩)
  · exact Or.inr (Or.inl h)

lemma fetchPanchayaths_perm (table : List Panchayath) :
    List.Perm (fetchPanchayaths table) table :=
  List.mergeSort_perm table panLe

lemma fetchPanchayaths_pairwise (table : List Panchayath) :
    (fetchPanchayaths table).Pairwise fun a b =>
      a.district < b.district ∨ (a.district = b.district ∧ a.name ≤ b.name) :=
  (List.sorted_mergeSort panLe_trans panLe_total table).imp fun h => panLe_iff.mp h

lemma fetchPanchayaths_pairwise_district (table : List Panchayath) :
    (fetchPanchayaths table).Pairwise fun a b => a.district ≤ b.district :=
  (fetchPanchayaths_pairwise table).imp fun h =>
    h.elim le_of_lt fun h' => le_of_eq h'.1

lemma groupGet_insertGroup (acc : List (String × List Panchayath)) (p : Panchayath)
    (k : String) :
    groupGet (insertGroup acc p) k
      = groupGet acc k ++ if p.district = k then [p] else [] := by
  induction acc with
  | nil =>
    by_cases h : p.district = k <;> simp [insertGroup, groupGet, h]
  | cons hd tl ih =>
    obtain ⟨k', g⟩ := hd
    by_cases h1 : k' = p.district
    · by_cases h2 : k' = k
      · have hdk : p.district = k := h1 ▸ h2
        simp [insertGroup, groupGet, h1, h2, hdk]
      · have hdk : ¬ p.district = k := fun hh => h2 (h1.trans hh)
        simp [insertGroup, groupGet, h1, h2, hdk]
    · by_cases h2 : k' = k
      · have hdk : ¬ p.district = k := fun hh => h1 (h2.trans hh.symm)
        have h1k : ¬ k = p.district := fun hh => h1 (h2.trans hh)
        simp [insertGroup, groupGet, h1, h2, hdk, h1k]
      · simp [insertGroup, groupGet, h1, h2, ih]

lemma groupGet_foldl (l : List Panchayath) :
    ∀ (acc : List (String × List Panchayath)) (k : String),
      groupGet (l.foldl insertGroup acc) k
        = groupGet acc k ++ l.filter fun p => p.district == k := by
  induction l with
  | nil => intro acc k; simp
  | cons p tl ih =>
    intro acc k
    simp only [List.foldl_cons, List.filter_cons]
    rw [ih, groupGet_insertGroup]
    by_cases h : p.district = k
    · simp [h, List.append_assoc]
    · simp [h]

lemma keys_insertGroup (acc : List (String × List Panchayath)) (p : Panchayath) :
    (insertGroup acc p).map Prod.fst
      = if p.district ∈ acc.map Prod.fst then acc.map Prod.fst
        else acc.map Prod.fst ++ [p.district] := by
  induction acc with
  | nil => simp [insertGroup]
  | cons hd tl ih =>
    obtain ⟨k', g⟩ := hd
    by_cases h1 : k' = p.district
    · subst h1
      simp [insertGroup]
    · have h1' : ¬ p.district = k' := fun hh => h1 hh.symm
      simp only [insertGroup, if_neg h1, List.map_cons, List.mem_cons]
      rw [ih]
      by_cases h2 : p.district ∈ tl.map Prod.fst
      · simp [h1', h2]
      · simp [h1', h2]

lemma keys_sorted_foldl :
    ∀ (l : List Panchayath) (acc : List (String × List Panchayath)),
      (l.Pairwise fun a b => a.district ≤ b.district) →
      ((acc.map Prod.fst).Pairwise (· < ·)) →
      (∀ p ∈ l, ∀ k ∈ acc.map Prod.fst, k ≤ p.district) →
      ((l.foldl insertGroup acc).map Prod.fst).Pairwise (· < ·) := by
  intro l
  induction l with
  | nil => intro acc _ hacc _; simpa using hacc
  | cons p tl ih =>
    intro acc hl hacc hub
    simp only [List.foldl_cons]
    apply ih
    · exact hl.of_cons
    · rw [keys_insertGroup]
      by_cases h : p.district ∈ acc.map Prod.fst
      · simpa [h] using hacc
      · rw [if_neg h, List.pairwise_append]
        refine ⟨hacc, by simp, ?_⟩
        intro k hk x hx
        simp only [List.mem_singleton] at hx
        subst hx
        have hle := hub p (List.mem_cons_self p tl) k hk
        exact lt_of_le_of_ne hle fun he => h (he ▸ hk)
    · intro q hq k hk
      rw [keys_insertGroup] at hk
      by_cases h : p.district ∈ acc.map Prod.fst
      · rw [if_pos h] at hk
        exact hub q (List.mem_cons_of_mem p hq) k hk
      · rw [if_neg h] at hk
        rcases List.mem_append.mp hk with hk | hk
        · exact hub q (List.mem_cons_of_mem p hq) k hk
        · simp only [List.mem_singleton] at hk
          subst hk
          exact (List.pairwise_cons.mp hl).1 q hq

lemma keys_sorted (table : List Panchayath) :
    ((panchayathsByDistrict (fetchPanchayaths table)).map Prod.fst).Pairwise (· < ·) := by
  apply keys_sorted_foldl (fetchPanchayaths table) []
    (fetchPanchayaths_pairwise_district table)
  · simp
  · intro p _ k hk
    simp at hk

lemma groups_groupGet :
    ∀ (acc : List (String × List Panchayath)), ((acc.map Prod.fst).Nodup) →
      ∀ kg ∈ acc, kg.2 = groupGet acc kg.1 := by
  intro acc
  induction acc with
  | nil => intro _ kg h; simp at h
  | cons hd tl ih =>
    intro hnd kg hkg
    obtain ⟨k', g⟩ := hd
    have hnd' := List.nodup_cons.mp (show (k' :: tl.map Prod.fst).Nodup from hnd)
    rcases List.mem_cons.mp hkg with rfl | hkg'
    · simp [groupGet]
    · have hk'ne : k' ≠ kg.1 := by
        intro he
        exact hnd'.1 (he ▸ List.mem_map_of_mem Prod.fst hkg')
      simp only [groupGet, if_neg hk'ne]
      exact ih hnd'.2 kg hkg'

lemma fetch_example : fetchPanchayaths [px2, px1, px3] = [px2, px1, px3] := by
  have hAB : panLe px2 px1 = true :=
    panLe_iff.mpr (Or.inr ⟨rfl, by rw [String.le_iff_toList_le]; decide⟩)
  have hXY1 : panLe px2 px3 = true :=
    panLe_iff.mpr (Or.inl (by rw [String.lt_iff_toList_lt]; decide))
  have hXY2 : panLe px1 px3 = true :=
    panLe_iff.mpr (Or.inl (by rw [String.lt_iff_toList_lt]; decide))
  apply List.mergeSort_of_sorted
  simp [List.pairwise_cons, hAB, hXY1, hXY2]

/-- Claim C3: the admin view groups the fetched rows by district
(`groupGet` at any key is exactly the fetched rows of that district),
the groups are displayed in strictly ascending district order, each
rows of each group carry the district of the group and are in ascending name
order; the concrete instance with names B, A in district X and C in
district Y yields exactly the two groups X then Y, each sorted by
name. -/
theorem claim_C3 (table : List Panchayath) :
    (((panchayathsByDistrict (fetchPanchayaths table)).map Prod.fst).Pairwise (· < ·))
  ∧ (∀ k : String, groupGet (panchayathsByDistrict (fetchPanchayaths table)) k
      = (fetchPanchayaths table).filter fun p => p.district == k)
  ∧ (∀ kg ∈ panchayathsByDistrict (fetchPanchayaths table),
      (∀ q ∈ kg.2, q.district = kg.1)
      ∧ kg.2.Pairwise fun a b => a.name ≤ b.name)
  ∧ panchayathsByDistrict (fetchPanchayaths [px2, px1, px3])
      = [("X", [px2, px1]), ("Y", [px3])] := by
  have hget : ∀ k : String, groupGet (panchayathsByDistrict (fetchPanchayaths table)) k
      = (fetchPanchayaths table).filter fun p => p.district == k := by
    intro k
    have h := groupGet_foldl (fetchPanchayaths table) [] k
    simpa [panchayathsByDistrict, groupGet] using h
  refine ⟨keys_sorted table, hget, ?_, ?_⟩
  · intro kg hkg
    have hnd : ((panchayathsByDistrict (fetchPanchayaths table)).map Prod.fst).Nodup :=
      (keys_sorted table).imp fun h => ne_of_lt h
    have hkg2 := groups_groupGet _ hnd kg hkg
    rw [hget kg.1] at hkg2
    constructor
    · intro q hq
      rw [hkg2] at hq
      simpa [beq_iff_eq] using (List.mem_filter.mp hq).2
    · rw [hkg2]
      have hpw := (fetchPanchayaths_pairwise table).filter fun p => p.district == kg.1
      apply hpw.imp_of_mem
      intro a b ha hb hr
      have ha' : a.district = kg.1 := by simpa using (List.mem_filter.mp ha).2
      have hb' : b.district = kg.1 := by simpa using (List.mem_filter.mp hb).2
      rcases hr with hr | hr
      · exact absurd (ha'.trans hb'.symm) (ne_of_lt hr)
      · exact hr.2
  · rw [fetch_example]
    rfl

/-- Claim C3 witness: the concrete two-district instance, extracted as
a closed equation by applying the theorem. -/
theorem claim_C3_witness :
    panchayathsByDistrict (fetchPanchayaths [px2, px1, px3])
      = [("X", [px2, px1]), ("Y", [px3])] :=
  (claim_C3 []).2.2.2

/-- Claim C4: a delete request is issued exactly when delete permission
is granted and the user confirms; a save request is issued exactly when
write permission is granted; in every refused case no request is issued;
neither handler ever changes the client state itself. -/
theorem claim_C4 (perms : Permissions) (confirmed : Bool) (id : String)
    (s : ClientState) (now : String) :
    ((Request.delete id ∈ (handleDelete perms confirmed id s).2) ↔
      (perms.canDelete = true ∧ confirmed = true))
  ∧ (handleDelete perms confirmed id s).1 = s
  ∧ (perms.canDelete = false ∨ confirmed = false →
      (handleDelete perms confirmed id s).2 = [])
  ∧ (handleSubmit perms s now).1 = s
  ∧ (perms.canWrite = false → (handleSubmit perms s now).2 = [])
  ∧ (perms.canWrite = true →
      (handleSubmit perms s now).2 = [savePanchayathMutationFn s now s.formData]) := by
  unfold handleDelete handleSubmit
  rcases perms with ⟨cw, cd⟩
  cases cw <;> cases cd <;> cases confirmed <;> simp

/-- Claim C4 witness: with delete permission absent but the user
confirming, the delete handler issues no request. -/
theorem claim_C4_witness :
    (handleDelete { canWrite := true, canDelete := false } true "7"
      { isDialogOpen := false, editingPanchayath := none, formData := emptyForm }).2
      = [] :=
  (claim_C4 { canWrite := true, canDelete := false } true "7"
    { isDialogOpen := false, editingPanchayath := none, formData := emptyForm }
    "now").2.2.1 (Or.inl rfl)

/-- Claim C5: with write permission, submitting the form issues an
update of the form fields plus a refreshed `updated_at`, filtered to
the id of the editing selection, exactly when an editing selection is
active; with no editing selection it issues an insert of a new row. -/
theorem claim_C5 (perms : Permissions) (s : ClientState) (now : String)
    (hw : perms.canWrite = true) :
    (∀ ep : Panchayath, s.editingPanchayath = some ep →
      (handleSubmit perms s now).2
        = [Request.update ep.id (updatePayload s.formData now)])
  ∧ (s.editingPanchayath = none →
      (handleSubmit perms s now).2 = [Request.insert (insertPayload s.formData)]) := by
  constructor
  · intro ep hep
    simp [handleSubmit, hw, savePanchayathMutationFn, hep]
  · intro hep
    simp [handleSubmit, hw, savePanchayathMutationFn, hep]

/-- Claim C5 witness: the theorem applied to a concrete editing state
(update branch) with write permission. -/
theorem claim_C5_witness :
    (handleSubmit { canWrite := true, canDelete := true }
      { isDialogOpen := true,
        editingPanchayath := some { id := "9", name := "P", district := "D",
                                    created_at := "c", updated_at := "u" },
        formData := { name := "N", district := "E" } } "T").2
      = [Request.update "9" (updatePayload { name := "N", district := "E" } "T")] :=
  (claim_C5 { canWrite := true, canDelete := true }
    { isDialogOpen := true,
      editingPanchayath := some { id := "9", name := "P", district := "D",
                                  created_at := "c", updated_at := "u" },
      formData := { name := "N", district := "E" } } "T" rfl).1
    { id := "9", name := "P", district := "D", created_at := "c", updated_at := "u" } rfl

lemma applyPayload_updatePayload (r : Panchayath) (fd : FormData) (now : String) :
    applyPayload r (updatePayload fd now)
      = { r with name := fd.name, district := fd.district, updated_at := now } :=
  rfl

lemma countP_id_eq_count (table : List Panchayath) (x : String) :
    table.countP (fun r => r.id == x) = (table.map Panchayath.id).count x := by
  rw [List.count_eq_countP, List.countP_map]
  rfl

/-- Claim C6: every successful mutation invalidates the shared
`admin-panchayaths` list query; a successful save additionally closes
the dialog, clears the editing selection and resets the form; and on a
table with unique ids the re-fetched list contains the updated row
(matching the editing id) exactly once, and after inserting a row with
a fresh id contains that row exactly once. -/
theorem claim_C6 (s : ClientState) (table : List Panchayath) (fd : FormData)
    (now : String) (ep row : Panchayath)
    (hnodup : (table.map Panchayath.id).Nodup)
    (hmem : ep.id ∈ table.map Panchayath.id)
    (hfresh : row.id ∉ table.map Panchayath.id) :
    Effect.invalidate "admin-panchayaths" ∈ (saveOnSuccess s).2
  ∧ Effect.invalidate "admin-panchayaths" ∈ (deleteOnSuccess s).2
  ∧ (saveOnSuccess s).1.isDialogOpen = false
  ∧ (saveOnSuccess s).1.editingPanchayath = none
  ∧ (saveOnSuccess s).1.formData = emptyForm
  ∧ (fetchPanchayaths (backendUpdate table ep.id (updatePayload fd now))).countP
      (fun r => r.id == ep.id) = 1
  ∧ (fetchPanchayaths (backendInsert table row)).countP
      (fun r => r.id == row.id) = 1 := by
  refine ⟨by simp [saveOnSuccess], by simp [deleteOnSuccess], rfl, rfl, rfl, ?_, ?_⟩
  · rw [List.Perm.countP_eq _ (fetchPanchayaths_perm _)]
    rw [backendUpdate, List.countP_map]
    have hcongr : ∀ r ∈ table,
        ((fun r : Panchayath => r.id == ep.id) ∘ fun r : Panchayath =>
          if r.id = ep.id then applyPayload r (updatePayload fd now) else r) r
        ↔ ((fun r : Panchayath => r.id == ep.id) r) := by
      intro r _
      by_cases h : r.id = ep.id
      · simp [Function.comp, h, applyPayload_updatePayload]
      · simp [Function.comp, h]
    rw [List.countP_congr hcongr, countP_id_eq_count]
    exact List.count_eq_one_of_mem hnodup hmem
  · rw [List.Perm.countP_eq _ (fetchPanchayaths_perm _), backendInsert,
      List.countP_append]
    have h0 : table.countP (fun r => r.id == row.id) = 0 := by
      rw [List.countP_eq_zero]
      intro r hr
      simp only [beq_iff_eq]
      intro he
      exact hfresh (he ▸ List.mem_map_of_mem Panchayath.id hr)
    simp [h0, List.countP_cons]

/-- Claim C6 witness: the theorem applied to a singleton table with a
fresh inserted row, extracting the insert-uniqueness conjunct. -/
theorem claim_C6_witness :
    (fetchPanchayaths (backendInsert
        [{ id := "1", name := "P", district := "D", created_at := "c", updated_at := "u" }]
        { id := "2", name := "Q", district := "D", created_at := "c", updated_at := "u" })).countP
      (fun r => r.id == "2") = 1 :=
  (claim_C6
    { isDialogOpen := false, editingPanchayath := none, formData := emptyForm }
    [{ id := "1", name := "P", district := "D", created_at := "c", updated_at := "u" }]
    emptyForm "T"
    { id := "1", name := "P", district := "D", created_at := "c", updated_at := "u" }
    { id := "2", name := "Q", district := "D", created_at := "c", updated_at := "u" }
    (by simp) (by simp) (by simp)).2.2.2.2.2.2

/-- Claim C7: a delete rejected by the backend (here: the modelled
referential-integrity constraint) changes nothing on the client — the
client state and the stored table are exactly as before and the only
emitted effect is the single fixed destructive toast (no invalidation,
no optimistic update, no retry request); likewise a failed save leaves
the state unchanged and emits only its fixed toast. -/
theorem claim_C7 (s : ClientState) (table : List Panchayath)
    (referencedIds : List String) (id : String)
    (href : id ∈ referencedIds) :
    (∃ msg, backendDelete table referencedIds id = Except.error msg)
  ∧ deleteMutationRun s table referencedIds id
      = (s, table,
         [Effect.toast "Delete Failed"
            "Failed to delete panchayath. It may be in use by registrations." true])
  ∧ (∀ s2 : ClientState, saveOnError s2
      = (s2, [Effect.toast "Operation Failed"
          "Failed to save panchayath. Please try again." true])) := by
  refine ⟨⟨"violates foreign key constraint", by simp [backendDelete, href]⟩, ?_,
    fun s2 => rfl⟩
  simp [deleteMutationRun, backendDelete, href, deleteOnError]

/-- Claim C7 witness: the theorem applied to a concrete referenced id,
extracting the unchanged-state equation. -/
theorem claim_C7_witness :
    deleteMutationRun
      { isDialogOpen := false, editingPanchayath := none, formData := emptyForm }
      [{ id := "1", name := "P", district := "D", created_at := "c", updated_at := "u" }]
      ["1"] "1"
      = ({ isDialogOpen := false, editingPanchayath := none, formData := emptyForm },
         [{ id := "1", name := "P", district := "D", created_at := "c", updated_at := "u" }],
         [Effect.toast "Delete Failed"
            "Failed to delete panchayath. It may be in use by registrations." true]) :=
  (claim_C7
    { isDialogOpen := false, editingPanchayath := none, formData := emptyForm }
    [{ id := "1", name := "P", district := "D", created_at := "c", updated_at := "u" }]
    ["1"] "1" (by simp)).2.1

/-- Claim C8: the realtime subscription is registered on table
`panchayaths` with the event wildcard `*`; for every notification
payload the handler emits exactly one invalidation of the list query
(ignoring the payload, never an incremental patch), and the
`useEffect` cleanup removes the channel. -/
theorem claim_C8 :
    panchayathsChannelFilter.event = "*"
  ∧ panchayathsChannelFilter.schema = "public"
  ∧ panchayathsChannelFilter.table = "panchayaths"
  ∧ (∀ payload : RealtimePayload,
      panchayathsChannelHandler payload = [Effect.invalidate "admin-panchayaths"])
  ∧ channelCleanup = [CleanupEffect.removeChannel panchayathsChannelName] :=
  ⟨rfl, rfl, rfl, fun _ => rfl, rfl⟩

/-- Claim C9: the update issued from the edit flow targets exactly the
id of the editing selection and its payload holds exactly the keys `name`,
`district`, `updated_at` — never `id` or `created_at` — so applying it
preserves the id and creation timestamp of a row, and rows whose id differs
from the filter are untouched (position by position); `handleEdit`
seeds the form from the selected row. -/
theorem claim_C9 (s : ClientState) (now : String) (ep : Panchayath)
    (hep : s.editingPanchayath = some ep) :
    (savePanchayathMutationFn s now s.formData
      = Request.update ep.id (updatePayload s.formData now))
  ∧ ((updatePayload s.formData now).map Prod.fst = ["name", "district", "updated_at"])
  ∧ ("id" ∉ (updatePayload s.formData now).map Prod.fst)
  ∧ ("created_at" ∉ (updatePayload s.formData now).map Prod.fst)
  ∧ (∀ r : Panchayath, (applyPayload r (updatePayload s.formData now)).id = r.id
      ∧ (applyPayload r (updatePayload s.formData now)).created_at = r.created_at)
  ∧ (∀ (table : List Panchayath) (i : Nat) (r : Panchayath),
      table[i]? = some r → r.id ≠ ep.id →
      (backendUpdate table ep.id (updatePayload s.formData now))[i]? = some r)
  ∧ (∀ (p : Panchayath) (s0 : ClientState),
      (handleEdit p s0).editingPanchayath = some p
      ∧ (handleEdit p s0).formData = { name := p.name, district := p.district }) := by
  refine ⟨by simp [savePanchayathMutationFn, hep], rfl, by simp [updatePayload],
    by simp [updatePayload], fun r => ⟨rfl, rfl⟩, ?_, fun p s0 => ⟨rfl, rfl⟩⟩
  intro table i r hri hrne
  rw [backendUpdate, List.getElem?_map, hri]
  simp [if_neg hrne]

/-- Claim C9 witness: the theorem applied to a concrete editing state,
extracting the payload-key list as a closed equation. -/
theorem claim_C9_witness :
    (updatePayload { name := "N", district := "E" } "T").map Prod.fst
      = ["name", "district", "updated_at"] :=
  (claim_C9
    { isDialogOpen := true,
      editingPanchayath := some { id := "9", name := "P", district := "D",
                                  created_at := "c", updated_at := "u" },
      formData := { name := "N", district := "E" } } "T"
    { id := "9", name := "P", district := "D", created_at := "c", updated_at := "u" }
    rfl).2.1

/-- Claim C10: a null row set on a successful fetch yields the empty
list from the public categories query function and the empty group map
from the admin grouping, and both components then render their
explicit empty states. -/
theorem claim_C10 :
    categoriesQueryFn none = []
  ∧ panchayathsByDistrictOpt none = []
  ∧ categoriesEmptyState (some (categoriesQueryFn none)) = true
  ∧ categoriesEmptyState none = true
  ∧ panchayathsEmptyState false none = true :=
  ⟨rfl, rfl, rfl, rfl, rfl⟩
